import Mathlib

/-!
# Verification of the DS205A turnstile driver

A shallow embedding, in Lean 4, of the core of the `dumacp/ds205a` Go
repository: the protocol codec (`internal/protocol/commands.go`), the
configuration validators (`internal/device` and `internal/rs485`), the
read-side frame resynchronization loop (`Device.Read`) and the
command/response retry state machine (`Device.SendCommand`).

Bytes are modelled as `Nat` with explicit `% 256` exactly where the Go
code performs wrapping 8-bit arithmetic; frames are `List Nat`; fallible
Go functions returning `(T, error)` become `Except`-valued functions.
-/

set_option maxRecDepth 4000

namespace DS205A

/-! ## Protocol constants (`internal/protocol/commands.go`, lines 83-93) -/

/-- Constant `FrameHeader = 0x7E`, starting position of command frames. -/
def FrameHeader : Nat := 0x7E

/-- Constant `ResponseHeader = 0x7F`, starting position of response frames. -/
def ResponseHeader : Nat := 0x7F

/-- Constant `FrameSize = 8`, fixed size of a command frame. -/
def FrameSize : Nat := 8

/-- Constant `ResponseSize = 18`, fixed size of a response frame. -/
def ResponseSize : Nat := 18

/-- Constant `DataSize = 3`, number of data bytes in a command frame. -/
def DataSize : Nat := 3

/-- Constant `SuccessExecution = 0x55`, command-execution byte value meaning success. -/
def SuccessExecution : Nat := 0x55

/-! ## Checksum algorithms (`commands.go`, lines 95-114)

`CalculateTxChecksum` sums all bytes into a wrapping 8-bit accumulator
(`ret += data[i]` on a Go `byte`) and then applies bitwise NOT (`^ret`),
which on an 8-bit value is XOR with `0xFF`.  `ValidateRxChecksum` does
the same wrapping sum and checks `ret + 1 == 0` (again 8-bit). -/

/-- Embedding of `CalculateTxChecksum` (`commands.go:97-104`). -/
def calculateTxChecksum (data : List Nat) : Nat :=
  (data.foldl (fun ret b => (ret + b) % 256) 0) ^^^ 0xFF

/-- Embedding of `ValidateRxChecksum` (`commands.go:108-114`). -/
def validateRxChecksum (data : List Nat) : Bool :=
  ((data.foldl (fun ret b => (ret + b) % 256) 0) + 1) % 256 == 0

/-! ## Command construction (`commands.go`, lines 116-144) -/

/-- The only error `BuildCommand` can produce: `data too large`. -/
inductive BuildError where
  | dataTooLarge (got : Nat)
deriving DecidableEq, Repr

/-- Embedding of `BuildCommand` (`commands.go:117-144`).

The Go code appends `[FrameHeader, 0x00, deviceID, cmd]`, then the three
data bytes padded with `0x00`, and finally
`CalculateTxChecksum(frame[0:])` — the checksum of the *whole* 7-byte
prefix, header byte included (despite the comment in the Go source that
says to exclude the header). -/
def buildCommand (deviceID : Nat) (cmd : Nat) (data : List Nat) :
    Except BuildError (List Nat) :=
  if data.length > DataSize then
    .error (.dataTooLarge data.length)
  else
    let frame := [FrameHeader, 0x00, deviceID, cmd] ++
      (List.range DataSize).map (fun i => data.getD i 0x00)
    .ok (frame ++ [calculateTxChecksum frame])

/-! ## Response parsing (`commands.go`, lines 46-81 and 146-195) -/

/-- Embedding of the `Response` struct (`commands.go:47-62`). -/
structure Response where
  startPosition : Nat
  versionNumber : Nat
  machineNumber : Nat
  faultEvent : Nat
  gateStatus : Nat
  alarmEvent : Nat
  leftPedestrianCount : Nat × Nat × Nat
  rightPedestrianCount : Nat × Nat × Nat
  infraredStatus : Nat
  commandExecution : Nat
  powerSupplyVoltage : Nat
  undefined1 : Nat
  undefined2 : Nat
  checksum : Nat
deriving DecidableEq, Repr

/-- Embedding of `Response.GetLeftCount` (`commands.go:65-69`):
`uint32(b0)<<16 | uint32(b1)<<8 | uint32(b2)` (no truncation can occur,
the value fits in 24 bits). -/
def Response.getLeftCount (r : Response) : Nat :=
  (r.leftPedestrianCount.1 <<< 16) |||
    (r.leftPedestrianCount.2.1 <<< 8) ||| r.leftPedestrianCount.2.2

/-- Embedding of `Response.GetRightCount` (`commands.go:72-76`). -/
def Response.getRightCount (r : Response) : Nat :=
  (r.rightPedestrianCount.1 <<< 16) |||
    (r.rightPedestrianCount.2.1 <<< 8) ||| r.rightPedestrianCount.2.2

/-- The errors `ParseResponse` can produce, in source order, each
carrying the context the Go error message reports. -/
inductive ParseError where
  | frameTooSmall (got : Nat)
  | invalidHeader (got : Nat)
  | machineIDMismatch (got expected : Nat)
  | commandFailed (got : Nat)
deriving DecidableEq, Repr

/-- Embedding of `ParseResponse` (`commands.go:147-195`).

Checks, in order: frame length `< 18`; header byte `≠ 0x7F`; machine
number (byte 2) `≠ expectedMachineID`; command execution (byte 13)
`≠ 0x55`.  The RX-checksum validation present in the Go source is
commented out there, and is therefore absent here as well. -/
def parseResponse (data : List Nat) (expectedMachineID : Nat) :
    Except ParseError Response :=
  if data.length < ResponseSize then
    .error (.frameTooSmall data.length)
  else if data.getD 0 0 ≠ ResponseHeader then
    .error (.invalidHeader (data.getD 0 0))
  else
    let response : Response := {
      startPosition := data.getD 0 0
      versionNumber := data.getD 1 0
      machineNumber := data.getD 2 0
      faultEvent := data.getD 3 0
      gateStatus := data.getD 4 0
      alarmEvent := data.getD 5 0
      leftPedestrianCount := (data.getD 6 0, data.getD 7 0, data.getD 8 0)
      rightPedestrianCount := (data.getD 9 0, data.getD 10 0, data.getD 11 0)
      infraredStatus := data.getD 12 0
      commandExecution := data.getD 13 0
      powerSupplyVoltage := data.getD 14 0
      undefined1 := data.getD 15 0
      undefined2 := data.getD 16 0
      checksum := data.getD 17 0 }
    if response.machineNumber ≠ expectedMachineID then
      .error (.machineIDMismatch response.machineNumber expectedMachineID)
    else if response.commandExecution ≠ SuccessExecution then
      .error (.commandFailed response.commandExecution)
    else
      .ok response

/-! ## Device session types (`internal/device/device.go`) -/

/-- Embedding of the `Status` struct (`device.go:136-146`). -/
structure Status where
  machineNumber : Nat
  versionNumber : Nat
  faultEvent : Nat
  gateStatus : Nat
  alarmEvent : Nat
  infraredStatus : Nat
  powerSupplyVoltage : Nat
  leftPedestrianCount : Nat
  rightPedestrianCount : Nat
deriving DecidableEq, Repr

/-- Embedding of the `Config` struct of package `device` (`device.go:31-42`).
Durations are modelled as integers (nanosecond counts, as in Go's
`time.Duration`); `RetryCount` is used as a non-negative count. -/
structure Config where
  port : String
  baudRate : Int
  dataBits : Int
  stopBits : Int
  parity : String
  timeout : Int
  readTimeout : Int
  writeTimeout : Int
  deviceID : Nat
  retryCount : Nat
deriving DecidableEq, Repr

/-- The validation errors of `validateConfig` (package `device`), in
source order. -/
inductive ConfigError where
  | portEmpty
  | invalidBaudRate
  | invalidDataBits
  | invalidStopBits
  | invalidParity
  | invalidTimeout
deriving DecidableEq, Repr

/-- Embedding of `validateConfig` of package `device` (run by
`device.New` at session construction, before any I/O).  Note the parity
whitelist here is only `none | odd | even`, and the operation timeout
must be positive. -/
def validateConfig (c : Config) : Except ConfigError Unit :=
  if c.port = "" then .error .portEmpty
  else if c.baudRate ≤ 0 then .error .invalidBaudRate
  else if c.dataBits < 5 ∨ c.dataBits > 8 then .error .invalidDataBits
  else if c.stopBits < 1 ∨ c.stopBits > 2 then .error .invalidStopBits
  else if c.parity ≠ "none" ∧ c.parity ≠ "odd" ∧ c.parity ≠ "even" then
    .error .invalidParity
  else if c.timeout ≤ 0 then .error .invalidTimeout
  else .ok ()

/-- Embedding of the `Config` struct of package `rs485`
(`pkg` sources, `rs485` part). -/
structure SerialConfig where
  port : String
  baudRate : Int
  dataBits : Int
  stopBits : Int
  parity : String
  readTimeout : Int
  writeTimeout : Int
deriving DecidableEq, Repr

/-- Embedding of `validateConfig` of package `rs485`
(`internal/rs485/serial.go:138-168`).  This one accepts all five parity
strings `none | odd | even | mark | space` and has no timeout check. -/
def rs485ValidateConfig (c : SerialConfig) : Except ConfigError Unit :=
  if c.port = "" then .error .portEmpty
  else if c.baudRate ≤ 0 then .error .invalidBaudRate
  else if c.dataBits < 5 ∨ c.dataBits > 8 then .error .invalidDataBits
  else if c.stopBits < 1 ∨ c.stopBits > 2 then .error .invalidStopBits
  else if ¬ (c.parity ∈ ["none", "odd", "even", "mark", "space"]) then
    .error .invalidParity
  else .ok ()

/-- The projection of a successful `Response` into a `Status` performed by
`Device.GetStatus` (`device` package, lines 299-318): the two 3-byte
counters are widened with `uint32(b0)<<16 | uint32(b1)<<8 | uint32(b2)`. -/
def statusOfResponse (r : Response) : Status :=
  { machineNumber := r.machineNumber
    versionNumber := r.versionNumber
    faultEvent := r.faultEvent
    gateStatus := r.gateStatus
    alarmEvent := r.alarmEvent
    infraredStatus := r.infraredStatus
    powerSupplyVoltage := r.powerSupplyVoltage
    leftPedestrianCount :=
      (r.leftPedestrianCount.1 <<< 16) |||
        (r.leftPedestrianCount.2.1 <<< 8) ||| r.leftPedestrianCount.2.2
    rightPedestrianCount :=
      (r.rightPedestrianCount.1 <<< 16) |||
        (r.rightPedestrianCount.2.1 <<< 8) ||| r.rightPedestrianCount.2.2 }

/-! ## Read-side frame resynchronization (`Device.Read`, device package
lines 120-192)

The Go loop reads chunks from the serial connection into a growing
`accumulated` buffer for at most `maxReadAttempts = 30` iterations.  We
model the byte stream as the list of chunks successive `conn.Read` calls
deliver; once the list is exhausted further reads deliver nothing (a
read timeout with `n = 0`).  Scanning for the header
(`for i, b := range accumulated`) is the search for the first index
holding `0x7F`. -/

/-- Result of `Device.Read`: a complete 18-byte frame, a timeout with
the (non-empty) partially accumulated bytes, or a timeout with no data. -/
inductive ReadResult where
  | success (frame : List Nat)
  | incomplete (acc : List Nat)
  | noData
deriving DecidableEq, Repr

/-- The header scan of `Device.Read` (lines 154-164): index of the first
occurrence of `ResponseHeader` in the accumulated buffer, if any. -/
def findHeaderIdx : List Nat → Option Nat
  | [] => none
  | b :: rest =>
    if b = ResponseHeader then some 0
    else (findHeaderIdx rest).map (· + 1)

/-- Constant `maxReadAttempts = 30` (`Device.Read`, line 133). -/
def maxReadAttempts : Nat := 30

/-- One-to-one embedding of the accumulation loop of `Device.Read`
(lines 137-191).  `n` is the remaining read-attempt budget, `chunks` the
chunks the connection will deliver, `acc` the accumulated buffer and
`initialByte` the flag that records that a header has been locked in
(after which the scan is never re-run). -/
def readLoop : Nat → List (List Nat) → List Nat → Bool → ReadResult
  | 0, _, acc, _ =>
    if acc.isEmpty then .noData else .incomplete acc
  | n + 1, chunks, acc, initialByte =>
    let (chunk, rest) :=
      match chunks with
      | [] => (([] : List Nat), ([] : List (List Nat)))
      | c :: cs => (c, cs)
    if chunk.isEmpty then
      readLoop n rest acc initialByte
    else
      let acc1 := acc ++ chunk
      let scanned :=
        if initialByte then (acc1, true)
        else
          match findHeaderIdx acc1 with
          | some i => (acc1.drop i, true)
          | none => (acc1, false)
      if scanned.2 ∧ ResponseSize ≤ scanned.1.length then
        .success (scanned.1.take ResponseSize)
      else
        readLoop n rest scanned.1 scanned.2

/-- Embedding of `Device.Read` on an open device: run the accumulation
loop with the full attempt budget and an empty buffer. -/
def deviceRead (chunks : List (List Nat)) : ReadResult :=
  readLoop maxReadAttempts chunks [] false

/-! ## Command/response exchange with retry (`Device.SendCommand`,
device package lines 195-253)

Each loop iteration writes the frame (`d.Write`) and, on success, runs
the resynchronizing read (`d.Read`).  We abstract the transport's
behaviour on attempt `i` as an `AttemptOutcome`: the write fails, the
read fails (timeout/incomplete frame/no data), or the read delivers an
18-byte buffer which is then handed to `ParseResponse`. -/

/-- Behaviour of the transport on one attempt of `SendCommand`. -/
inductive AttemptOutcome where
  | writeErr
  | readErr
  | readOk (bytes : List Nat)
deriving DecidableEq, Repr

/-- Transport failures (write or read) are the outcomes `SendCommand`
retries; a delivered-but-unparseable response is not one. -/
def AttemptOutcome.isTransportFail : AttemptOutcome → Bool
  | .writeErr => true
  | .readErr => true
  | .readOk _ => false

/-- Errors of `SendCommand`, each carrying the attempt count its Go
error message reports (`d.config.RetryCount + 1` in every case). -/
inductive SendError where
  | notOpen
  | buildFailed (e : BuildError)
  | writeFailedAfter (attempts : Nat)
  | readFailedAfter (attempts : Nat)
  | parseFailedAfter (attempts : Nat) (e : ParseError)
  | noValidResponse (attempts : Nat)
deriving DecidableEq, Repr

deriving instance DecidableEq for Except

/-- Observable outcome of a `SendCommand` call: its result, the number
of transport writes and reads it performed, and the backoff sleeps (in
milliseconds, in order) it executed. -/
structure SendOutcome where
  result : Except SendError Response
  writes : Nat
  reads : Nat
  sleepsMs : List Nat
deriving DecidableEq, Repr

/-- The backoff sleep executed at the top of iteration `attempt`
(`SendCommand`, lines 209-212): `attempt * 100` ms when `attempt > 0`,
nothing on the first iteration. -/
def sleepsFor (attempt : Nat) : List Nat :=
  if attempt > 0 then [attempt * 100] else []

/-- One-to-one embedding of the retry loop of `SendCommand` (lines
208-244).  `fuel` is the number of loop iterations still allowed
(`retryCount + 1 - attempt` at every real call site); a write or read
error continues to the next attempt unless `attempt = retryCount`, and
any `parseResponse` error returns immediately. -/
def sendLoop (deviceID : Nat) (outcomes : Nat → AttemptOutcome)
    (retryCount : Nat) : Nat → Nat → SendOutcome
  | 0, _ =>
    { result := .error (.noValidResponse (retryCount + 1))
      writes := 0, reads := 0, sleepsMs := [] }
  | fuel + 1, attempt =>
    match outcomes attempt with
    | .writeErr =>
      if attempt = retryCount then
        { result := .error (.writeFailedAfter (retryCount + 1))
          writes := 1, reads := 0, sleepsMs := sleepsFor attempt }
      else
        let rest := sendLoop deviceID outcomes retryCount fuel (attempt + 1)
        { result := rest.result, writes := 1 + rest.writes
          reads := rest.reads, sleepsMs := sleepsFor attempt ++ rest.sleepsMs }
    | .readErr =>
      if attempt = retryCount then
        { result := .error (.readFailedAfter (retryCount + 1))
          writes := 1, reads := 1, sleepsMs := sleepsFor attempt }
      else
        let rest := sendLoop deviceID outcomes retryCount fuel (attempt + 1)
        { result := rest.result, writes := 1 + rest.writes
          reads := 1 + rest.reads
          sleepsMs := sleepsFor attempt ++ rest.sleepsMs }
    | .readOk bytes =>
      match parseResponse bytes deviceID with
      | .error e =>
        { result := .error (.parseFailedAfter (retryCount + 1) e)
          writes := 1, reads := 1, sleepsMs := sleepsFor attempt }
      | .ok r =>
        { result := .ok r, writes := 1, reads := 1
          sleepsMs := sleepsFor attempt }

/-- Embedding of `Device.SendCommand` (lines 195-253): fail fast with
`NotOpen` on a closed session (before touching the transport), build the
frame (failing fast on oversized data), then run the retry loop with
`retryCount + 1` iterations starting at attempt `0`. -/
def sendCommand (closed : Bool) (deviceID : Nat) (retryCount : Nat)
    (outcomes : Nat → AttemptOutcome) (cmd : Nat) (data : List Nat) :
    SendOutcome :=
  if closed then
    { result := .error .notOpen, writes := 0, reads := 0, sleepsMs := [] }
  else
    match buildCommand deviceID cmd data with
    | .error e =>
      { result := .error (.buildFailed e), writes := 0, reads := 0
        sleepsMs := [] }
    | .ok _frame =>
      sendLoop deviceID outcomes retryCount (retryCount + 1) 0

/-! ## Typed commands (device package, lines 293-445)

Each typed operation is a thin wrapper: one `SendCommand` call with a
fixed command code and 0-1 data bytes; only `GetStatus` projects the
response into a `Status`. -/

/-- Embedding of `Device.GetStatus` (lines 293-321): send `0x10` with no
data and project the parsed response into a `Status`. -/
def getStatus (closed : Bool) (deviceID retryCount : Nat)
    (outcomes : Nat → AttemptOutcome) : Except SendError Status :=
  match (sendCommand closed deviceID retryCount outcomes 0x10 []).result with
  | .error e => .error e
  | .ok r => .ok (statusOfResponse r)

/-- The `(commandCode, data)` pairs of the thirteen typed commands of
the device package (`GetStatus`, `LeftOpen(v)`, `LeftAlwaysOpen`,
`RightOpen(v)`, `RightAlwaysOpen`, `CloseGate`, `ForbiddenLeftPassage`,
`ForbiddenRightPassage`, `DisablePassageRestrictions`,
`ResetLeftCounters`, `ResetRightCounters`, `Reset` (restart, data
`0x60`), `SetParameters(v)`), as each one passes them to
`SendCommand`. -/
def typedCommandArgs (v : Nat) : List (Nat × List Nat) :=
  [(0x10, []), (0x80, [v]), (0x81, []), (0x82, [v]), (0x83, []),
   (0x84, []), (0x88, []), (0x89, []), (0x8F, []),
   (0x20, []), (0x21, []), (0x35, [0x60]), (0x96, [v])]

/-! ## Helper lemmas about the wrapping checksum accumulator -/

/-- The wrapping 8-bit accumulator of both checksum loops computes the
plain sum modulo 256. -/
theorem foldl_add_mod (l : List Nat) :
    ∀ a : Nat, a < 256 →
      l.foldl (fun ret b => (ret + b) % 256) a = (a + l.sum) % 256 := by
  induction l with
  | nil =>
    intro a ha
    simp [Nat.mod_eq_of_lt ha]
  | cons b t ih =>
    intro a ha
    have h1 : (a + b) % 256 < 256 := Nat.mod_lt _ (by omega)
    calc (b :: t).foldl (fun ret b => (ret + b) % 256) a
        = t.foldl (fun ret b => (ret + b) % 256) ((a + b) % 256) := rfl
      _ = ((a + b) % 256 + t.sum) % 256 := ih _ h1
      _ = (a + b + t.sum) % 256 := by
          rw [Nat.mod_add_mod]
      _ = (a + (b :: t).sum) % 256 := by
          rw [List.sum_cons]; ring_nf

/-- XOR with `0xFF` is subtraction from `0xFF` on 8-bit values. -/
theorem xor_255_eq (x : Nat) (h : x < 256) : x ^^^ 0xFF = 255 - x := by
  have hfin : ∀ y : Fin 256, (y.val ^^^ 0xFF = 255 - y.val) := by decide
  exact hfin ⟨x, h⟩

/-- Claim C10: the TX and RX checksum algorithms are inverses: appending
`CalculateTxChecksum(p)` to any byte list `p` always passes
`ValidateRxChecksum`, and `ValidateRxChecksum(q)` holds exactly when the
mod-256 sum of `q` is `0xFF`. -/
theorem tx_rx_checksum_inverse :
    (∀ p : List Nat, validateRxChecksum (p ++ [calculateTxChecksum p]) = true) ∧
    (∀ q : List Nat, validateRxChecksum q = true ↔ q.sum % 256 = 0xFF) := by
  have hval : ∀ q : List Nat,
      validateRxChecksum q = true ↔ q.sum % 256 = 0xFF := by
    intro q
    unfold validateRxChecksum
    rw [foldl_add_mod q 0 (by omega)]
    simp only [Nat.zero_add, beq_iff_eq]
    constructor
    · intro h
      omega
    · intro h
      omega
  refine ⟨fun p => ?_, hval⟩
  rw [hval]
  unfold calculateTxChecksum
  rw [foldl_add_mod p 0 (by omega), Nat.zero_add,
    xor_255_eq _ (Nat.mod_lt _ (by omega))]
  rw [List.sum_append, List.sum_cons, List.sum_nil]
  omega

/-- Claim C1 (code bug): evaluation of `BuildCommand` at `deviceID = 0x00`,
`commandCode = 0x10` (GetStatus), `data = []` showing that the checksum
byte covers the header: the produced frame is
`[7E 00 00 10 00 00 00 71]`, whose bytes 1..7 sum to `0x81 ≢ 0
(mod 256)`, and the checksum `0x71` is *not* the one's complement
`0xEF = 255 - 0x10` of the sum of bytes 1..6 that the claim (and the Go
source's own comment, and the repository's legacy duplicate of
`BuildCommand`, which passes `frame[1:7]`) prescribe. -/
theorem buildCommand_checksum_covers_header :
    buildCommand 0x00 0x10 [] =
      .ok [0x7E, 0x00, 0x00, 0x10, 0x00, 0x00, 0x00, 0x71] ∧
    ([0x00, 0x00, 0x10, 0x00, 0x00, 0x00, 0x71] : List Nat).sum % 256 = 0x81 ∧
    (0x71 : Nat) ≠
      255 - (([0x00, 0x00, 0x10, 0x00, 0x00, 0x00] : List Nat).sum % 256) := by
  refine ⟨by decide, by decide, by decide⟩

/-- Claim C7: the function `buildCommand` fails (with its only error, data-too-large)
iff `len(data) > 3`; for `len(data) ≤ 3` it deterministically returns
the 8-byte frame `[0x7E][0x00][deviceID][commandCode][data0][data1]
[data2][checksum]` with missing data bytes padded by `0x00`. -/
theorem buildCommand_layout (deviceID cmd : Nat) (data : List Nat) :
    ((∃ n, buildCommand deviceID cmd data = .error (.dataTooLarge n)) ↔
      3 < data.length) ∧
    (data.length ≤ 3 →
      buildCommand deviceID cmd data =
        .ok [FrameHeader, 0x00, deviceID, cmd, data.getD 0 0x00,
          data.getD 1 0x00, data.getD 2 0x00,
          calculateTxChecksum [FrameHeader, 0x00, deviceID, cmd,
            data.getD 0 0x00, data.getD 1 0x00, data.getD 2 0x00]]) ∧
    (∀ f, buildCommand deviceID cmd data = .ok f → f.length = 8) := by
  by_cases h : 3 < data.length
  · have herr : buildCommand deviceID cmd data =
        .error (.dataTooLarge data.length) := by
      unfold buildCommand
      rw [if_pos (by simpa [DataSize] using h)]
    refine ⟨⟨fun _ => h, fun _ => ⟨data.length, herr⟩⟩, fun h' => ?_, ?_⟩
    · omega
    · intro f hf
      rw [herr] at hf
      cases hf
  · have hok : buildCommand deviceID cmd data =
        .ok [FrameHeader, 0x00, deviceID, cmd, data.getD 0 0x00,
          data.getD 1 0x00, data.getD 2 0x00,
          calculateTxChecksum [FrameHeader, 0x00, deviceID, cmd,
            data.getD 0 0x00, data.getD 1 0x00, data.getD 2 0x00]] := by
      unfold buildCommand
      rw [if_neg (by simpa [DataSize] using h)]
      rfl
    refine ⟨⟨fun ⟨n, hn⟩ => ?_, fun h' => absurd h' h⟩, fun _ => hok, ?_⟩
    · rw [hok] at hn
      cases hn
    · intro f hf
      rw [hok] at hf
      cases hf
      rfl

/-- Witness for C7 at a concrete input: `deviceID = 1`,
`commandCode = 0x80` (LeftOpen), one data byte. -/
theorem buildCommand_layout_witness :
    ([2] : List Nat).length ≤ 3 ∧
    buildCommand 1 0x80 [2] =
      .ok [FrameHeader, 0x00, 1, 0x80, 2, 0x00, 0x00,
        calculateTxChecksum [FrameHeader, 0x00, 1, 0x80, 2, 0x00, 0x00]] :=
  ⟨by decide, (buildCommand_layout 1 0x80 [2]).2.1 (by decide)⟩

/-- Claim C2: the function `parseResponse` fails exactly under these conditions, in
this order: frame-too-small iff fewer than 18 bytes; invalid-header iff
byte 0 is not `0x7F`; machine-ID-mismatch iff byte 2 differs from the
expected device ID (regardless of every other field, including the
command-execution byte); command-failed iff byte 13 is not `0x55` even
when header and device ID are correct; otherwise it succeeds. -/
theorem parseResponse_error_conditions (data : List Nat) (expected : Nat) :
    ((∃ n, parseResponse data expected = .error (.frameTooSmall n)) ↔
      data.length < 18) ∧
    ((∃ g, parseResponse data expected = .error (.invalidHeader g)) ↔
      (18 ≤ data.length ∧ data.getD 0 0 ≠ 0x7F)) ∧
    ((∃ g e, parseResponse data expected = .error (.machineIDMismatch g e)) ↔
      (18 ≤ data.length ∧ data.getD 0 0 = 0x7F ∧ data.getD 2 0 ≠ expected)) ∧
    ((∃ g, parseResponse data expected = .error (.commandFailed g)) ↔
      (18 ≤ data.length ∧ data.getD 0 0 = 0x7F ∧ data.getD 2 0 = expected ∧
        data.getD 13 0 ≠ 0x55)) ∧
    ((∃ r, parseResponse data expected = .ok r) ↔
      (18 ≤ data.length ∧ data.getD 0 0 = 0x7F ∧ data.getD 2 0 = expected ∧
        data.getD 13 0 = 0x55)) := by
  unfold parseResponse
  simp only [ResponseSize, ResponseHeader, SuccessExecution]
  split_ifs with h1 h2 h3 h4 <;> simp_all

/-- Claim C3: the function `parseResponse` never rejects for a checksum mismatch: every
18-byte input with header `0x7F`, matching device ID at byte 2 and
`0x55` at byte 13 parses successfully whatever the checksum byte
(byte 17) holds, and that byte is exposed verbatim in the returned
record's `Checksum` field. -/
theorem parseResponse_ignores_checksum (data : List Nat) (expected : Nat)
    (hlen : data.length = 18) (hhead : data.getD 0 0 = 0x7F)
    (hid : data.getD 2 0 = expected) (hexec : data.getD 13 0 = 0x55) :
    ∃ r, parseResponse data expected = .ok r ∧ r.checksum = data.getD 17 0 := by
  have h := (parseResponse_error_conditions data expected).2.2.2.2
  obtain ⟨r, hr⟩ := h.mpr ⟨by omega, hhead, hid, hexec⟩
  refine ⟨r, hr, ?_⟩
  unfold parseResponse at hr
  simp only [ResponseSize, ResponseHeader, SuccessExecution] at hr
  split_ifs at hr with h1 h2 h3 h4
  cases hr
  rfl

/-- Witness for C3: a complete frame whose checksum byte `0xAB` bears no
relation to the other bytes still parses. -/
theorem parseResponse_ignores_checksum_witness :
    ∃ r, parseResponse
        [0x7F, 1, 2, 0, 0, 0, 0, 0, 0, 0, 0, 0, 0, 0x55, 36, 0, 0, 0xAB] 2 =
        .ok r ∧ r.checksum = 0xAB := by
  obtain ⟨r, hr, hc⟩ := parseResponse_ignores_checksum
    [0x7F, 1, 2, 0, 0, 0, 0, 0, 0, 0, 0, 0, 0, 0x55, 36, 0, 0, 0xAB] 2
    (by decide) (by decide) (by decide) (by decide)
  exact ⟨r, hr, hc.trans (by decide)⟩

/-- Claim C9: for every successfully parsed response, the `Status`
produced by `GetStatus` carries `leftPedestrianCount =
(b0<<16)|(b1<<8)|b2` of raw response bytes 6..8 and
`rightPedestrianCount` the same widening of bytes 9..11, agreeing with
the codec accessors `GetLeftCount`/`GetRightCount`. -/
theorem getStatus_count_widening (data : List Nat) (expected : Nat)
    (r : Response) (h : parseResponse data expected = .ok r) :
    (statusOfResponse r).leftPedestrianCount =
      ((data.getD 6 0) <<< 16) ||| ((data.getD 7 0) <<< 8) ||| data.getD 8 0 ∧
    (statusOfResponse r).rightPedestrianCount =
      ((data.getD 9 0) <<< 16) ||| ((data.getD 10 0) <<< 8) ||| data.getD 11 0 ∧
    (statusOfResponse r).leftPedestrianCount = r.getLeftCount ∧
    (statusOfResponse r).rightPedestrianCount = r.getRightCount := by
  unfold parseResponse at h
  simp only [ResponseSize, ResponseHeader, SuccessExecution] at h
  split_ifs at h with h1 h2 h3 h4
  cases h
  exact ⟨rfl, rfl, rfl, rfl⟩

/-- Witness for C9, the spec's scenario: left-count bytes
`[0x00, 0x01, 0x2C]` yield `leftPedestrianCount = 300`. -/
theorem getStatus_count_widening_witness :
    ∃ r, parseResponse
        [0x7F, 7, 1, 0, 0, 0, 0x00, 0x01, 0x2C, 0, 0, 0, 0, 0x55, 36, 0, 0, 0] 1 =
        .ok r ∧ (statusOfResponse r).leftPedestrianCount = 300 := by
  obtain ⟨r, hr⟩ : ∃ r, parseResponse
      [0x7F, 7, 1, 0, 0, 0, 0x00, 0x01, 0x2C, 0, 0, 0, 0, 0x55, 36, 0, 0, 0] 1 =
      .ok r := ⟨_, rfl⟩
  exact ⟨r, hr, ((getStatus_count_widening _ 1 r hr).1).trans (by decide)⟩

/-- Claim C4 counterexample: the session-construction validation
(`device.validateConfig`, run by `device.New` before any I/O) rejects
otherwise-valid configurations with parity `"mark"` or `"space"`, and
also rejects a non-positive operation timeout — both contradicting the
claim that exactly `{none, odd, even, mark, space}` (with no timeout
condition) are accepted. -/
theorem validateConfig_rejects_mark_space :
    validateConfig
      { port := "/dev/ttyUSB0", baudRate := 9600, dataBits := 8, stopBits := 1,
        parity := "mark", timeout := 5000000000, readTimeout := 2000000000,
        writeTimeout := 2000000000, deviceID := 1, retryCount := 3 } =
      .error .invalidParity ∧
    validateConfig
      { port := "/dev/ttyUSB0", baudRate := 9600, dataBits := 8, stopBits := 1,
        parity := "space", timeout := 5000000000, readTimeout := 2000000000,
        writeTimeout := 2000000000, deviceID := 1, retryCount := 3 } =
      .error .invalidParity ∧
    validateConfig
      { port := "/dev/ttyUSB0", baudRate := 9600, dataBits := 8, stopBits := 1,
        parity := "none", timeout := 0, readTimeout := 2000000000,
        writeTimeout := 2000000000, deviceID := 1, retryCount := 3 } =
      .error .invalidTimeout := by
  refine ⟨by decide, by decide, by decide⟩

/-- Claim C4 as amended: the session-construction validation accepts exactly
the configurations with non-empty port, baud rate `> 0`, data bits in
`5..8`, stop bits in `{1, 2}`, parity in `{none, odd, even}` — mark and
space are rejected — and a positive operation timeout; only the
rs485-level validator (`rs485.validateConfig`) accepts the full parity
set `{none, odd, even, mark, space}`. -/
theorem validateConfig_characterization (c : Config) (s : SerialConfig) :
    (validateConfig c = .ok () ↔
      (c.port ≠ "" ∧ 0 < c.baudRate ∧ 5 ≤ c.dataBits ∧ c.dataBits ≤ 8 ∧
        1 ≤ c.stopBits ∧ c.stopBits ≤ 2 ∧
        (c.parity = "none" ∨ c.parity = "odd" ∨ c.parity = "even") ∧
        0 < c.timeout)) ∧
    (rs485ValidateConfig s = .ok () ↔
      (s.port ≠ "" ∧ 0 < s.baudRate ∧ 5 ≤ s.dataBits ∧ s.dataBits ≤ 8 ∧
        1 ≤ s.stopBits ∧ s.stopBits ≤ 2 ∧
        (s.parity = "none" ∨ s.parity = "odd" ∨ s.parity = "even" ∨
          s.parity = "mark" ∨ s.parity = "space"))) := by
  constructor
  · unfold validateConfig
    split_ifs with h1 h2 h3 h4 h5 h6 <;> simp_all
    all_goals try omega
    all_goals tauto
  · unfold rs485ValidateConfig
    split_ifs with h1 h2 h3 h4 h5 <;> simp_all
    all_goals omega

/-- Claim C8: any command issued while the session is Closed fails with
the not-open error before touching the transport: no write, no read, no
sleep — stated both for arbitrary `(commandCode, data)` and, item by
item, for the thirteen typed commands of the device package. -/
theorem sendCommand_closed_no_transport (deviceID retryCount : Nat)
    (outcomes : Nat → AttemptOutcome) (v : Nat) :
    (∀ cmd data, sendCommand true deviceID retryCount outcomes cmd data =
      { result := .error .notOpen, writes := 0, reads := 0, sleepsMs := [] }) ∧
    ((typedCommandArgs v).all fun p =>
      sendCommand true deviceID retryCount outcomes p.1 p.2 ==
        { result := .error .notOpen, writes := 0, reads := 0,
          sleepsMs := [] }) = true :=
  ⟨fun _ _ => rfl, rfl⟩

/-! ## Characterizing the read-resync loop (C5)

The stream-level description of `Device.Read`: writing `s` for the
bytes delivered within the 30-attempt budget, the frame attempt works on
`afterHeader s`, the suffix of `s` from the first `0x7F` on. -/

/-- The suffix of a byte stream starting at the first occurrence of
`ResponseHeader` (empty when there is none). -/
def afterHeader (s : List Nat) : List Nat :=
  s.dropWhile (fun b => b != ResponseHeader)

theorem afterHeader_eq_nil_iff (l : List Nat) :
    afterHeader l = [] ↔ ResponseHeader ∉ l := by
  unfold afterHeader
  rw [List.dropWhile_eq_nil_iff]
  constructor
  · intro h hmem
    have := h _ hmem
    simp at this
  · intro h x hx
    have : x ≠ ResponseHeader := fun he => h (he ▸ hx)
    simpa using this

theorem afterHeader_append_of_not_mem (l₁ l₂ : List Nat)
    (h : ResponseHeader ∉ l₁) :
    afterHeader (l₁ ++ l₂) = afterHeader l₂ := by
  induction l₁ with
  | nil => rfl
  | cons b t ih =>
    have hb : b ≠ ResponseHeader := fun he => h (by simp [he])
    have ht : ResponseHeader ∉ t := fun hm => h (by simp [hm])
    simp only [List.cons_append]
    unfold afterHeader
    rw [List.dropWhile_cons]
    simp only [bne_iff_ne, ne_eq, hb, not_false_eq_true, if_true]
    exact ih ht

theorem afterHeader_append_of_ne_nil (l₁ l₂ : List Nat)
    (h : afterHeader l₁ ≠ []) :
    afterHeader (l₁ ++ l₂) = afterHeader l₁ ++ l₂ := by
  induction l₁ with
  | nil => simp [afterHeader] at h
  | cons b t ih =>
    by_cases hb : b = ResponseHeader
    · subst hb
      unfold afterHeader
      simp [List.dropWhile_cons]
    · have ht : afterHeader (b :: t) = afterHeader t := by
        unfold afterHeader
        rw [List.dropWhile_cons]
        simp [hb]
      rw [ht] at h
      have : afterHeader (b :: t ++ l₂) = afterHeader (t ++ l₂) := by
        unfold afterHeader
        rw [List.cons_append, List.dropWhile_cons]
        simp [hb]
      rw [this, ih h, ht]

theorem findHeaderIdx_none (l : List Nat) (h : findHeaderIdx l = none) :
    ResponseHeader ∉ l := by
  induction l with
  | nil => simp
  | cons b t ih =>
    unfold findHeaderIdx at h
    by_cases hb : b = ResponseHeader
    · rw [if_pos hb] at h
      cases h
    · rw [if_neg hb] at h
      have ht := ih (Option.map_eq_none.mp h)
      intro hm
      rcases List.mem_cons.mp hm with he | hm'
      · exact hb he.symm
      · exact ht hm'

theorem findHeaderIdx_some (l : List Nat) :
    ∀ i, findHeaderIdx l = some i →
      l.drop i = afterHeader l ∧ l.drop i ≠ [] := by
  induction l with
  | nil => intro i h; cases h
  | cons b t ih =>
    intro i h
    unfold findHeaderIdx at h
    by_cases hb : b = ResponseHeader
    · rw [if_pos hb] at h
      cases h
      subst hb
      constructor
      · unfold afterHeader
        rw [List.dropWhile_cons]
        simp
      · simp
    · rw [if_neg hb] at h
      obtain ⟨j, hj, hij⟩ := Option.map_eq_some.mp h
      subst hij
      obtain ⟨h1, h2⟩ := ih j hj
      have hcons : afterHeader (b :: t) = afterHeader t := by
        unfold afterHeader
        rw [List.dropWhile_cons]
        simp [hb]
      exact ⟨by simpa [hcons] using h1, by simpa using h2⟩

/-- Behaviour of the accumulation loop once a header has been locked in
(`initialByte = true`): every further chunk is appended as is, the
frame completes as soon as 18 bytes are available, and otherwise the
whole accumulation is returned as an incomplete frame. -/
theorem readLoop_locked (n : Nat) :
    ∀ (chunks : List (List Nat)) (acc : List Nat),
      acc ≠ [] → acc.length < ResponseSize →
      (ResponseSize ≤ (acc ++ (chunks.take n).flatten).length →
        readLoop n chunks acc true =
          .success ((acc ++ (chunks.take n).flatten).take ResponseSize)) ∧
      ((acc ++ (chunks.take n).flatten).length < ResponseSize →
        readLoop n chunks acc true = .incomplete (acc ++ (chunks.take n).flatten)) := by
  induction n with
  | zero =>
    intro chunks acc hne hlt
    simp only [List.take_zero, List.flatten_nil, List.append_nil]
    refine ⟨fun h => absurd h (by omega), fun _ => ?_⟩
    unfold readLoop
    rw [if_neg (by simpa [List.isEmpty_iff] using hne)]
  | succ n ih =>
    intro chunks acc hne hlt
    match chunks with
    | [] =>
      have hstep : readLoop (n + 1) [] acc true = readLoop n [] acc true := rfl
      simpa [hstep] using ih [] acc hne hlt
    | c :: cs =>
      by_cases hc : c = []
      · subst hc
        have hstep : readLoop (n + 1) ([] :: cs) acc true =
            readLoop n cs acc true := rfl
        simpa [hstep] using ih cs acc hne hlt
      · have hassoc : acc ++ ((c :: cs).take (n + 1)).flatten =
            (acc ++ c) ++ (cs.take n).flatten := by
          rw [List.take_succ_cons, List.flatten_cons, List.append_assoc]
        have hunfold : readLoop (n + 1) (c :: cs) acc true =
            (if c.isEmpty = true then readLoop n cs acc true
             else if (true : Bool) = true ∧ ResponseSize ≤ (acc ++ c).length
               then ReadResult.success ((acc ++ c).take ResponseSize)
               else readLoop n cs (acc ++ c) true) := rfl
        rw [if_neg (by simpa [List.isEmpty_iff] using hc)] at hunfold
        by_cases hlen : ResponseSize ≤ (acc ++ c).length
        · rw [if_pos ⟨rfl, hlen⟩] at hunfold
          rw [hassoc]
          refine ⟨fun _ => ?_, fun h => ?_⟩
          · rw [hunfold, List.take_append_of_le_length hlen]
          · rw [List.length_append] at h
            omega
        · rw [if_neg (fun hcontra => hlen hcontra.2)] at hunfold
          have hacc1 : acc ++ c ≠ [] := by
            intro hnil
            exact hne (List.append_eq_nil.mp hnil).1
          rw [hassoc, hunfold]
          exact ih cs (acc ++ c) hacc1 (by omega)

/-- Behaviour of the accumulation loop while still scanning for a
header (`initialByte = false`, no header among the bytes accumulated so
far): the result is determined by the suffix of the delivered stream
from the first `0x7F` on. -/
theorem readLoop_scan (n : Nat) :
    ∀ (chunks : List (List Nat)) (acc : List Nat),
      ResponseHeader ∉ acc →
      (ResponseSize ≤ (afterHeader (acc ++ (chunks.take n).flatten)).length →
        readLoop n chunks acc false =
          .success ((afterHeader (acc ++ (chunks.take n).flatten)).take
            ResponseSize)) ∧
      ((afterHeader (acc ++ (chunks.take n).flatten)).length < ResponseSize →
        acc ++ (chunks.take n).flatten ≠ [] →
        readLoop n chunks acc false =
          .incomplete (if (afterHeader (acc ++ (chunks.take n).flatten)).isEmpty
            then acc ++ (chunks.take n).flatten
            else afterHeader (acc ++ (chunks.take n).flatten))) ∧
      (acc ++ (chunks.take n).flatten = [] →
        readLoop n chunks acc false = .noData) := by
  induction n with
  | zero =>
    intro chunks acc hmem
    have htail : afterHeader acc = [] := (afterHeader_eq_nil_iff acc).mpr hmem
    simp only [List.take_zero, List.flatten_nil, List.append_nil, htail]
    refine ⟨fun h => by simp [ResponseSize] at h, fun _ hne => ?_, fun h => ?_⟩
    · unfold readLoop
      rw [if_neg (by simpa [List.isEmpty_iff] using hne)]
      simp
    · unfold readLoop
      rw [if_pos (by simpa [List.isEmpty_iff] using h)]
  | succ n ih =>
    intro chunks acc hmem
    match chunks with
    | [] =>
      have hstep : readLoop (n + 1) [] acc false = readLoop n [] acc false := rfl
      simpa [hstep] using ih [] acc hmem
    | c :: cs =>
      by_cases hc : c = []
      · subst hc
        have hstep : readLoop (n + 1) ([] :: cs) acc false =
            readLoop n cs acc false := rfl
        simpa [hstep] using ih cs acc hmem
      · have hassoc : acc ++ ((c :: cs).take (n + 1)).flatten =
            (acc ++ c) ++ (cs.take n).flatten := by
          rw [List.take_succ_cons, List.flatten_cons, List.append_assoc]
        have htotal_ne : acc ++ ((c :: cs).take (n + 1)).flatten ≠ [] := by
          rw [hassoc]
          intro hnil
          exact hc (List.append_eq_nil.mp (List.append_eq_nil.mp hnil).1).2
        have hunfold : readLoop (n + 1) (c :: cs) acc false =
            (if c.isEmpty = true then readLoop n cs acc false
             else
               let scanned :=
                 match findHeaderIdx (acc ++ c) with
                 | some i => ((acc ++ c).drop i, true)
                 | none => (acc ++ c, false)
               if scanned.2 = true ∧ ResponseSize ≤ scanned.1.length
                 then ReadResult.success (scanned.1.take ResponseSize)
                 else readLoop n cs scanned.1 scanned.2) := rfl
        rw [if_neg (by simpa [List.isEmpty_iff] using hc)] at hunfold
        rcases hfind : findHeaderIdx (acc ++ c) with _ | i
        · -- no header delivered yet: keep scanning with the larger buffer
          have hmem1 : ResponseHeader ∉ acc ++ c := findHeaderIdx_none _ hfind
          simp only [hfind] at hunfold
          rw [if_neg (fun hco => by simpa using hco.1)] at hunfold
          have hih := ih cs (acc ++ c) hmem1
          rw [hassoc]
          exact ⟨fun h => hunfold.trans (hih.1 h),
            fun h hne => hunfold.trans (hih.2.1 h hne),
            fun h => absurd (hassoc ▸ h) htotal_ne⟩
        · -- header found at index i: lock it in and drop the prefix
          obtain ⟨hdrop, hne'⟩ := findHeaderIdx_some (acc ++ c) i hfind
          have hafter_ne : afterHeader (acc ++ c) ≠ [] := hdrop ▸ hne'
          have htail : afterHeader ((acc ++ c) ++ (cs.take n).flatten) =
              afterHeader (acc ++ c) ++ (cs.take n).flatten :=
            afterHeader_append_of_ne_nil _ _ hafter_ne
          simp only [hfind, hdrop] at hunfold
          by_cases hlen : ResponseSize ≤ (afterHeader (acc ++ c)).length
          · rw [if_pos ⟨trivial, hlen⟩] at hunfold
            rw [hassoc, htail]
            refine ⟨fun _ => ?_, fun h _ => ?_, fun h => absurd h ?_⟩
            · rw [hunfold, List.take_append_of_le_length hlen]
            · rw [List.length_append] at h
              omega
            · intro hnil
              exact hc (List.append_eq_nil.mp (List.append_eq_nil.mp hnil).1).2
          · rw [if_neg (fun hco => hlen hco.2)] at hunfold
            have hlock := readLoop_locked n cs (afterHeader (acc ++ c))
              hafter_ne (by omega)
            rw [hassoc, htail]
            refine ⟨fun h => hunfold.trans (hlock.1 h),
              fun h _ => ?_, fun h => absurd h ?_⟩
            · rw [if_neg (by
                simp only [List.isEmpty_iff]
                intro hnil
                exact hafter_ne (List.append_eq_nil.mp hnil).1)]
              exact hunfold.trans (hlock.2 h)
            · intro hnil
              exact hc (List.append_eq_nil.mp (List.append_eq_nil.mp hnil).1).2

/-- Claim C5: stream-level behaviour of the resynchronizing read: writing
`s` for the bytes the connection delivers within the 30-attempt budget,
the read discards everything before the first `0x7F`, locks that header
in (a later `0x7F` never restarts the frame), and returns exactly the
first 18 bytes from the header as soon as they are available (consuming
only the first of back-to-back frames); if the budget is exhausted with
some bytes accumulated those partial bytes come back with an
incomplete-frame error, and with nothing accumulated the read reports
no-data. -/
theorem deviceRead_resync (chunks : List (List Nat)) :
    (ResponseSize ≤
        (afterHeader ((chunks.take maxReadAttempts).flatten)).length →
      deviceRead chunks =
        .success ((afterHeader ((chunks.take maxReadAttempts).flatten)).take
          ResponseSize)) ∧
    ((afterHeader ((chunks.take maxReadAttempts).flatten)).length <
        ResponseSize →
      (chunks.take maxReadAttempts).flatten ≠ [] →
      deviceRead chunks =
        .incomplete
          (if (afterHeader ((chunks.take maxReadAttempts).flatten)).isEmpty
            then (chunks.take maxReadAttempts).flatten
            else afterHeader ((chunks.take maxReadAttempts).flatten))) ∧
    ((chunks.take maxReadAttempts).flatten = [] →
      deviceRead chunks = .noData) := by
  have h := readLoop_scan maxReadAttempts chunks [] (by simp)
  simpa [deviceRead] using h

/-- Witness for C5, the spec's resync scenario: the stream delivers
`[0x01, 0x02, 0x7F, …]` split across two reads; the two leading noise
bytes are discarded and the full 18-byte frame starting at `0x7F` is
returned. -/
theorem deviceRead_resync_witness :
    ResponseSize ≤
      (afterHeader (([[0x01, 0x02, 0x7F, 0x05, 0x01, 0x00, 0x00, 0x00],
        [0x00, 0x01, 0x2C, 0x00, 0x00, 0x00, 0x00, 0x55, 0x24, 0x00, 0x00,
          0x99, 0x7F]].take maxReadAttempts).flatten)).length ∧
    deviceRead [[0x01, 0x02, 0x7F, 0x05, 0x01, 0x00, 0x00, 0x00],
        [0x00, 0x01, 0x2C, 0x00, 0x00, 0x00, 0x00, 0x55, 0x24, 0x00, 0x00,
          0x99, 0x7F]] =
      .success [0x7F, 0x05, 0x01, 0x00, 0x00, 0x00, 0x00, 0x01, 0x2C, 0x00,
        0x00, 0x00, 0x00, 0x55, 0x24, 0x00, 0x00, 0x99] := by
  refine ⟨by decide, ?_⟩
  have h := (deviceRead_resync [[0x01, 0x02, 0x7F, 0x05, 0x01, 0x00, 0x00, 0x00],
        [0x00, 0x01, 0x2C, 0x00, 0x00, 0x00, 0x00, 0x55, 0x24, 0x00, 0x00,
          0x99, 0x7F]]).1 (by decide)
  rw [h]
  decide

/-! ## Characterizing the retry loop (C6) -/

/-- The backoff sleeps performed by `j` consecutive loop iterations
starting at attempt `a`. -/
def sleepsRange : Nat → Nat → List Nat
  | _, 0 => []
  | a, j + 1 => sleepsFor a ++ sleepsRange (a + 1) j

theorem sleepsRange_of_pos :
    ∀ (j a : Nat), 1 ≤ a →
      sleepsRange a j = (List.range' a j).map (· * 100) := by
  intro j
  induction j with
  | zero => intro a _; rfl
  | succ j ih =>
    intro a ha
    show sleepsFor a ++ sleepsRange (a + 1) j = _
    rw [List.range'_succ a j 1, List.map_cons, ih (a + 1) (by omega)]
    simp only [sleepsFor, if_pos (show 0 < a from ha)]
    rfl

theorem sleepsRange_zero (k : Nat) :
    sleepsRange 0 (k + 1) = (List.range' 1 k).map (· * 100) := by
  show sleepsFor 0 ++ sleepsRange 1 k = _
  rw [sleepsRange_of_pos k 1 (by omega)]
  simp [sleepsFor]

/-- Definitional unfolding of one iteration of the retry loop. -/
theorem sendLoop_succ_eq (deviceID rc : Nat)
    (outcomes : Nat → AttemptOutcome) (fuel attempt : Nat) :
    sendLoop deviceID outcomes rc (fuel + 1) attempt =
      (match outcomes attempt with
       | .writeErr =>
         if attempt = rc then
           { result := .error (.writeFailedAfter (rc + 1))
             writes := 1, reads := 0, sleepsMs := sleepsFor attempt }
         else
           let rest := sendLoop deviceID outcomes rc fuel (attempt + 1)
           { result := rest.result, writes := 1 + rest.writes
             reads := rest.reads
             sleepsMs := sleepsFor attempt ++ rest.sleepsMs }
       | .readErr =>
         if attempt = rc then
           { result := .error (.readFailedAfter (rc + 1))
             writes := 1, reads := 1, sleepsMs := sleepsFor attempt }
         else
           let rest := sendLoop deviceID outcomes rc fuel (attempt + 1)
           { result := rest.result, writes := 1 + rest.writes
             reads := 1 + rest.reads
             sleepsMs := sleepsFor attempt ++ rest.sleepsMs }
       | .readOk bytes =>
         match parseResponse bytes deviceID with
         | .error e =>
           { result := .error (.parseFailedAfter (rc + 1) e)
             writes := 1, reads := 1, sleepsMs := sleepsFor attempt }
         | .ok r =>
           { result := .ok r, writes := 1, reads := 1
             sleepsMs := sleepsFor attempt }) := rfl

/-- Step equation of the retry loop when the write fails. -/
theorem sendLoop_succ_writeErr (deviceID rc : Nat)
    (outcomes : Nat → AttemptOutcome) (fuel attempt : Nat)
    (h : outcomes attempt = .writeErr) :
    sendLoop deviceID outcomes rc (fuel + 1) attempt =
      (if attempt = rc then
        { result := .error (.writeFailedAfter (rc + 1))
          writes := 1, reads := 0, sleepsMs := sleepsFor attempt }
       else
        { result := (sendLoop deviceID outcomes rc fuel (attempt + 1)).result
          writes := 1 + (sendLoop deviceID outcomes rc fuel (attempt + 1)).writes
          reads := (sendLoop deviceID outcomes rc fuel (attempt + 1)).reads
          sleepsMs := sleepsFor attempt ++
            (sendLoop deviceID outcomes rc fuel (attempt + 1)).sleepsMs }) := by
  rw [sendLoop_succ_eq, h]

/-- Step equation of the retry loop when the read fails. -/
theorem sendLoop_succ_readErr (deviceID rc : Nat)
    (outcomes : Nat → AttemptOutcome) (fuel attempt : Nat)
    (h : outcomes attempt = .readErr) :
    sendLoop deviceID outcomes rc (fuel + 1) attempt =
      (if attempt = rc then
        { result := .error (.readFailedAfter (rc + 1))
          writes := 1, reads := 1, sleepsMs := sleepsFor attempt }
       else
        { result := (sendLoop deviceID outcomes rc fuel (attempt + 1)).result
          writes := 1 + (sendLoop deviceID outcomes rc fuel (attempt + 1)).writes
          reads := 1 + (sendLoop deviceID outcomes rc fuel (attempt + 1)).reads
          sleepsMs := sleepsFor attempt ++
            (sendLoop deviceID outcomes rc fuel (attempt + 1)).sleepsMs }) := by
  rw [sendLoop_succ_eq, h]

/-- Step equation of the retry loop when the read delivers a buffer. -/
theorem sendLoop_succ_readOk (deviceID rc : Nat)
    (outcomes : Nat → AttemptOutcome) (fuel attempt : Nat) (bytes : List Nat)
    (h : outcomes attempt = .readOk bytes) :
    sendLoop deviceID outcomes rc (fuel + 1) attempt =
      (match parseResponse bytes deviceID with
       | .error e =>
         { result := .error (.parseFailedAfter (rc + 1) e)
           writes := 1, reads := 1, sleepsMs := sleepsFor attempt }
       | .ok r =>
         { result := .ok r, writes := 1, reads := 1
           sleepsMs := sleepsFor attempt }) := by
  rw [sendLoop_succ_eq, h]

/-- The retry loop performs at most `fuel` write attempts. -/
theorem sendLoop_writes_le (deviceID rc : Nat)
    (outcomes : Nat → AttemptOutcome) :
    ∀ (fuel attempt : Nat),
      (sendLoop deviceID outcomes rc fuel attempt).writes ≤ fuel := by
  intro fuel
  induction fuel with
  | zero => intro attempt; exact Nat.le_refl 0
  | succ fuel ih =>
    intro attempt
    rcases houtc : outcomes attempt with _ | _ | bytes
    · rw [sendLoop_succ_writeErr deviceID rc outcomes fuel attempt houtc]
      split_ifs
      · show (1 : Nat) ≤ fuel + 1
        omega
      · show 1 + (sendLoop deviceID outcomes rc fuel (attempt + 1)).writes ≤
          fuel + 1
        have := ih (attempt + 1)
        omega
    · rw [sendLoop_succ_readErr deviceID rc outcomes fuel attempt houtc]
      split_ifs
      · show (1 : Nat) ≤ fuel + 1
        omega
      · show 1 + (sendLoop deviceID outcomes rc fuel (attempt + 1)).writes ≤
          fuel + 1
        have := ih (attempt + 1)
        omega
    · rw [sendLoop_succ_readOk deviceID rc outcomes fuel attempt bytes houtc]
      rcases parseResponse bytes deviceID with e | r
      · show (1 : Nat) ≤ fuel + 1
        omega
      · show (1 : Nat) ≤ fuel + 1
        omega

/-- If the transport fails the `j` attempts starting at `a` and the
read at attempt `a + j ≤ retryCount` delivers `bytes`, the loop stops
there: the result is the parse of `bytes` (a parse error surfacing
immediately, never retried), after exactly `j + 1` writes and the
backoff sleeps of attempts `a..a+j`. -/
theorem sendLoop_first_delivery (deviceID rc : Nat)
    (outcomes : Nat → AttemptOutcome) :
    ∀ (j a : Nat) (bytes : List Nat),
      a + j ≤ rc →
      (∀ i, a ≤ i → i < a + j → (outcomes i).isTransportFail = true) →
      outcomes (a + j) = .readOk bytes →
      ((sendLoop deviceID outcomes rc (rc + 1 - a) a).result =
        (match parseResponse bytes deviceID with
         | .ok r => .ok r
         | .error e => .error (.parseFailedAfter (rc + 1) e))) ∧
      (sendLoop deviceID outcomes rc (rc + 1 - a) a).writes = j + 1 ∧
      (sendLoop deviceID outcomes rc (rc + 1 - a) a).sleepsMs =
        sleepsRange a (j + 1) := by
  intro j
  induction j with
  | zero =>
    intro a bytes ha _ hdeliver
    have hdeliver' : outcomes a = .readOk bytes := hdeliver
    have hfuel : rc + 1 - a = (rc - a) + 1 := by omega
    rw [hfuel, sendLoop_succ_readOk deviceID rc outcomes (rc - a) a bytes
      hdeliver']
    rcases hp : parseResponse bytes deviceID with e | r <;>
      exact ⟨rfl, rfl, by simp [sleepsRange]⟩
  | succ j ih =>
    intro a bytes ha hfail hdeliver
    have hne : ¬ a = rc := by omega
    have hfuel : rc + 1 - a = (rc - a) + 1 := by omega
    have hfuel' : rc - a = rc + 1 - (a + 1) := by omega
    have hihyp := ih (a + 1) bytes (by omega)
      (fun i h1 h2 => hfail i (by omega) (by omega))
      (by rw [show a + 1 + j = a + (j + 1) from by omega]; exact hdeliver)
    rw [← hfuel'] at hihyp
    have hthis := hfail a (Nat.le_refl a) (by omega)
    rcases houtc : outcomes a with _ | _ | b
    · rw [hfuel,
        sendLoop_succ_writeErr deviceID rc outcomes (rc - a) a houtc,
        if_neg hne]
      exact ⟨hihyp.1, by
        show 1 + (sendLoop deviceID outcomes rc (rc - a) (a + 1)).writes =
          j + 1 + 1
        have := hihyp.2.1
        omega, by
        show sleepsFor a ++
            (sendLoop deviceID outcomes rc (rc - a) (a + 1)).sleepsMs =
          sleepsRange a (j + 1 + 1)
        rw [hihyp.2.2]
        rfl⟩
    · rw [hfuel,
        sendLoop_succ_readErr deviceID rc outcomes (rc - a) a houtc,
        if_neg hne]
      exact ⟨hihyp.1, by
        show 1 + (sendLoop deviceID outcomes rc (rc - a) (a + 1)).writes =
          j + 1 + 1
        have := hihyp.2.1
        omega, by
        show sleepsFor a ++
            (sendLoop deviceID outcomes rc (rc - a) (a + 1)).sleepsMs =
          sleepsRange a (j + 1 + 1)
        rw [hihyp.2.2]
        rfl⟩
    · rw [houtc] at hthis
      simp [AttemptOutcome.isTransportFail] at hthis

/-- If the transport fails every attempt from `a` through `retryCount`,
the loop exhausts all of them and surfaces the transport error of the
last attempt, wrapped with the `retryCount + 1` attempt count. -/
theorem sendLoop_all_transport_fails (deviceID rc : Nat)
    (outcomes : Nat → AttemptOutcome) :
    ∀ (j a : Nat), a + j = rc →
      (∀ i, a ≤ i → i ≤ rc → (outcomes i).isTransportFail = true) →
      ((outcomes rc = .writeErr →
        (sendLoop deviceID outcomes rc (rc + 1 - a) a).result =
          .error (.writeFailedAfter (rc + 1))) ∧
       (outcomes rc = .readErr →
        (sendLoop deviceID outcomes rc (rc + 1 - a) a).result =
          .error (.readFailedAfter (rc + 1))) ∧
       (sendLoop deviceID outcomes rc (rc + 1 - a) a).writes = j + 1 ∧
       (sendLoop deviceID outcomes rc (rc + 1 - a) a).sleepsMs =
         sleepsRange a (j + 1)) := by
  intro j
  induction j with
  | zero =>
    intro a ha hfail
    have ha' : a = rc := by omega
    have hfuel : rc + 1 - a = 0 + 1 := by omega
    have hthis := hfail a (Nat.le_refl a) (by omega)
    rw [hfuel]
    rcases houtc : outcomes a with _ | _ | b
    · rw [sendLoop_succ_writeErr deviceID rc outcomes 0 a houtc, if_pos ha']
      exact ⟨fun _ => rfl,
        fun hcontra => absurd
          (houtc.symm.trans ((congrArg outcomes ha').trans hcontra)) (by simp),
        rfl, by simp [sleepsRange]⟩
    · rw [sendLoop_succ_readErr deviceID rc outcomes 0 a houtc, if_pos ha']
      exact ⟨fun hcontra => absurd
          (houtc.symm.trans ((congrArg outcomes ha').trans hcontra)) (by simp),
        fun _ => rfl,
        rfl, by simp [sleepsRange]⟩
    · rw [houtc] at hthis
      simp [AttemptOutcome.isTransportFail] at hthis
  | succ j ih =>
    intro a ha hfail
    have hne : ¬ a = rc := by omega
    have hfuel : rc + 1 - a = (rc - a) + 1 := by omega
    have hfuel' : rc - a = rc + 1 - (a + 1) := by omega
    have hihyp := ih (a + 1) (by omega) (fun i h1 h2 => hfail i (by omega) h2)
    rw [← hfuel'] at hihyp
    have hthis := hfail a (Nat.le_refl a) (by omega)
    rcases houtc : outcomes a with _ | _ | b
    · rw [hfuel,
        sendLoop_succ_writeErr deviceID rc outcomes (rc - a) a houtc,
        if_neg hne]
      refine ⟨fun h => hihyp.1 h, fun h => hihyp.2.1 h, ?_, ?_⟩
      · show 1 + (sendLoop deviceID outcomes rc (rc - a) (a + 1)).writes =
          j + 1 + 1
        have := hihyp.2.2.1
        omega
      · show sleepsFor a ++
            (sendLoop deviceID outcomes rc (rc - a) (a + 1)).sleepsMs =
          sleepsRange a (j + 1 + 1)
        rw [hihyp.2.2.2]
        rfl
    · rw [hfuel,
        sendLoop_succ_readErr deviceID rc outcomes (rc - a) a houtc,
        if_neg hne]
      refine ⟨fun h => hihyp.1 h, fun h => hihyp.2.1 h, ?_, ?_⟩
      · show 1 + (sendLoop deviceID outcomes rc (rc - a) (a + 1)).writes =
          j + 1 + 1
        have := hihyp.2.2.1
        omega
      · show sleepsFor a ++
            (sendLoop deviceID outcomes rc (rc - a) (a + 1)).sleepsMs =
          sleepsRange a (j + 1 + 1)
        rw [hihyp.2.2.2]
        rfl
    · rw [houtc] at hthis
      simp [AttemptOutcome.isTransportFail] at hthis

/-- Claim C6: the function `sendCommand` on an open session makes at most
`retryCount + 1` attempts, sleeping `attempt * 100` ms before each
retry; write/read errors are retried except on the last attempt, where
the transport error surfaces wrapped with the `retryCount + 1` attempt
count; a `ParseResponse` error surfaces immediately and is never
retried; and if the transport fails the first `k ≤ retryCount` attempts
and delivers a parseable response on attempt `k`, the call returns that
response after exactly `k + 1` attempts. -/
theorem sendCommand_retry_policy (deviceID retryCount cmd : Nat)
    (data : List Nat) (outcomes : Nat → AttemptOutcome)
    (hdata : data.length ≤ 3) :
    (sendCommand false deviceID retryCount outcomes cmd data).writes ≤
      retryCount + 1 ∧
    (∀ k bytes, k ≤ retryCount →
      (∀ i, i < k → (outcomes i).isTransportFail = true) →
      outcomes k = .readOk bytes →
      (∀ r, parseResponse bytes deviceID = .ok r →
        (sendCommand false deviceID retryCount outcomes cmd data).result =
          .ok r ∧
        (sendCommand false deviceID retryCount outcomes cmd data).writes =
          k + 1 ∧
        (sendCommand false deviceID retryCount outcomes cmd data).sleepsMs =
          (List.range' 1 k).map (· * 100)) ∧
      (∀ e, parseResponse bytes deviceID = .error e →
        (sendCommand false deviceID retryCount outcomes cmd data).result =
          .error (.parseFailedAfter (retryCount + 1) e) ∧
        (sendCommand false deviceID retryCount outcomes cmd data).writes =
          k + 1)) ∧
    ((∀ i, i ≤ retryCount → (outcomes i).isTransportFail = true) →
      (outcomes retryCount = .writeErr →
        (sendCommand false deviceID retryCount outcomes cmd data).result =
          .error (.writeFailedAfter (retryCount + 1))) ∧
      (outcomes retryCount = .readErr →
        (sendCommand false deviceID retryCount outcomes cmd data).result =
          .error (.readFailedAfter (retryCount + 1))) ∧
      (sendCommand false deviceID retryCount outcomes cmd data).writes =
        retryCount + 1) := by
  have hbuild : buildCommand deviceID cmd data =
      .ok ([FrameHeader, 0x00, deviceID, cmd] ++
        (List.range DataSize).map (fun i => data.getD i 0x00) ++
        [calculateTxChecksum ([FrameHeader, 0x00, deviceID, cmd] ++
          (List.range DataSize).map (fun i => data.getD i 0x00))]) := by
    unfold buildCommand
    rw [if_neg (by simp only [DataSize]; omega)]
  have hsc : sendCommand false deviceID retryCount outcomes cmd data =
      sendLoop deviceID outcomes retryCount (retryCount + 1) 0 := by
    unfold sendCommand
    rw [hbuild]
    rfl
  have hzero : retryCount + 1 - 0 = retryCount + 1 := rfl
  refine ⟨?_, ?_, ?_⟩
  · rw [hsc]
    exact sendLoop_writes_le deviceID retryCount outcomes (retryCount + 1) 0
  · intro k bytes hk hfail hdeliver
    have h := sendLoop_first_delivery deviceID retryCount outcomes k 0 bytes
      (by omega) (fun i h1 h2 => hfail i (by omega))
      (by rw [show 0 + k = k from by omega]; exact hdeliver)
    rw [hzero] at h
    constructor
    · intro r hr
      rw [hr] at h
      refine ⟨by rw [hsc]; exact h.1, by rw [hsc]; exact h.2.1, ?_⟩
      rw [hsc, h.2.2, sleepsRange_zero]
    · intro e he
      rw [he] at h
      exact ⟨by rw [hsc]; exact h.1, by rw [hsc]; exact h.2.1⟩
  · intro hfail
    have h := sendLoop_all_transport_fails deviceID retryCount outcomes
      retryCount 0 (by omega) (fun i h1 h2 => hfail i h2)
    rw [hzero] at h
    exact ⟨fun hw => by rw [hsc]; exact h.1 hw,
      fun hr => by rw [hsc]; exact h.2.1 hr,
      by rw [hsc]; exact h.2.2.1⟩

/-- The transport behaviour used by the C6 witness: the write of
attempt 0 fails, every later attempt delivers a well-formed frame for
device 1. -/
def retryWitnessOutcomes : Nat → AttemptOutcome := fun i =>
  if i = 0 then .writeErr
  else .readOk [0x7F, 7, 1, 0, 0, 0, 0, 0, 0, 0, 0, 0, 0, 0x55, 36, 0, 0, 0]

/-- Witness for C6: with `retryCount = 2`, a write failure on attempt 0
and a good frame on attempt 1 yield the parsed response after exactly
2 attempts with a single 100 ms backoff sleep. -/
theorem sendCommand_retry_policy_witness :
    ∃ r, parseResponse
        [0x7F, 7, 1, 0, 0, 0, 0, 0, 0, 0, 0, 0, 0, 0x55, 36, 0, 0, 0] 1 =
        .ok r ∧
      (sendCommand false 1 2 retryWitnessOutcomes 0x10 []).result = .ok r ∧
      (sendCommand false 1 2 retryWitnessOutcomes 0x10 []).writes = 2 ∧
      (sendCommand false 1 2 retryWitnessOutcomes 0x10 []).sleepsMs =
        [100] := by
  obtain ⟨r, hr⟩ : ∃ r, parseResponse
      [0x7F, 7, 1, 0, 0, 0, 0, 0, 0, 0, 0, 0, 0, 0x55, 36, 0, 0, 0] 1 =
      .ok r := ⟨_, rfl⟩
  have h := (((sendCommand_retry_policy 1 2 0x10 [] retryWitnessOutcomes
    (by decide)).2.1 1
    [0x7F, 7, 1, 0, 0, 0, 0, 0, 0, 0, 0, 0, 0, 0x55, 36, 0, 0, 0]
    (by decide) (by decide) (by decide)).1 r hr)
  exact ⟨r, hr, h.1, h.2.1, h.2.2.trans (by decide)⟩

end DS205A
